/-
Verification development for the whspr-rs dictation controller.

The Rust sources are shallowly embedded as executable Lean definitions:
pure control flow is translated directly, and every interaction with the
operating system (file creation, process probing, signal delivery, audio
capture, the whisper engine) is represented by an explicit environment
value recording the outcome the code would observe at that call site.
Machine integers are modelled as Nat (all involved quantities are small
and non-overflowing), and f32 sample values are modelled as Float; no
property proved here depends on floating-point values.
-/
import Mathlib

/- ### Hotkey monitor (src/hotkey.rs) -/

/-- Events emitted by the hotkey monitor (`HotkeyEvent` in src/hotkey.rs). -/
inductive HotkeyEvent where
  | pressed
  | released
deriving DecidableEq

/-- One evdev input event as consumed by `HotkeyMonitor::run`: whether its
event type is `KEY`, the key code, and the value (0=release, 1=press,
2=repeat). -/
structure KeyInput where
  isKey : Bool
  code : Nat
  value : Nat
deriving DecidableEq

/-- Membership test of a key code in a key set, modelling `HashSet::contains`. -/
def keyMem (c : Nat) (s : List Nat) : Bool :=
  s.contains c

/-- Insertion into a key set, modelling `HashSet::insert` (idempotent). -/
def keyInsert (c : Nat) (s : List Nat) : List Nat :=
  if s.contains c then s else c :: s

/-- Removal from a key set, modelling `HashSet::remove`. -/
def keyRemove (c : Nat) (s : List Nat) : List Nat :=
  s.filter (fun k => !(k == c))

/-- Superset test `held_keys.is_superset(&self.target_keys)`: every
configured target key is currently held. -/
def coversTargets (targets held : List Nat) : Bool :=
  targets.all (fun k => held.contains k)

/-- One iteration of the event loop in `HotkeyMonitor::run`
(src/hotkey.rs lines 51-95): updates the held-key set and the
`combo_active` flag and returns the emitted events (at most one). -/
def hotkeyStep (targets : List Nat) (held : List Nat) (active : Bool)
    (ev : KeyInput) : List Nat × Bool × List HotkeyEvent :=
  if ev.isKey = false then (held, active, [])
  else if keyMem ev.code targets = false then (held, active, [])
  else if ev.value = 1 then
    let held' := keyInsert ev.code held
    if !active && coversTargets targets held' then
      (held', true, [HotkeyEvent.pressed])
    else
      (held', active, [])
  else if ev.value = 0 then
    let held' := keyRemove ev.code held
    if active && !coversTargets targets held' then
      (held', false, [HotkeyEvent.released])
    else
      (held', active, [])
  else (held, active, [])

/-- The monitor loop folded over a finite list of input events, starting
from a given held-key set and `combo_active` flag, collecting every
emitted `HotkeyEvent` in order. -/
def hotkeyRun (targets : List Nat) : List Nat → Bool → List KeyInput → List HotkeyEvent
  | _, _, [] => []
  | held, active, ev :: rest =>
    let s := hotkeyStep targets held active ev
    s.2.2 ++ hotkeyRun targets s.1 s.2.1 rest

/-- Strict-alternation checker for an emitted event stream: the Bool says
whether the next event must be `pressed`. -/
def altFrom : Bool → List HotkeyEvent → Bool
  | _, [] => true
  | true, HotkeyEvent.pressed :: r => altFrom false r
  | false, HotkeyEvent.released :: r => altFrom true r
  | _, _ => false

/- ### Chunked transcription (src/transcribe.rs) -/

/-- Chunk duration in seconds (`CHUNK_DURATION_SECS = 30.0`). The source
computes `(30.0 * sample_rate as f64) as usize`; for every `u32` sample
rate this product is below 2^53 and exact in f64, so it equals
`30 * sampleRate` over Nat. -/
def CHUNK_DURATION_SECS : Nat := 30

/-- Overlap in seconds (`OVERLAP_SECS = 1.0`); `(1.0 * sample_rate as f64)
as usize = sampleRate` exactly, as above. -/
def OVERLAP_SECS : Nat := 1

/-- Slice `&audio[offset..end]` of the sample buffer. -/
def chunkSlice {α : Type} (audio : List α) (p : Nat × Nat) : List α :=
  (audio.drop p.1).take (p.2 - p.1)

/-- The `while offset < audio.len()` loop of `WhisperLocal::transcribe`
(src/transcribe.rs lines 74-99). `tc` stands for `transcribe_chunk`
(an external whisper call returning `Result<String>`). The loop is given
explicit fuel (the Rust loop has none); `none` marks fuel exhaustion and
is proved unreachable for `audio.length` fuel and sampleRate ≥ 1. -/
def transcribeChunkLoop {α : Type} (tc : List α → Except String String)
    (audio : List α) (chunkSize overlap : Nat) :
    Nat → Nat → List String → Option (Except String String)
  | 0, _, _ => none
  | fuel + 1, offset, results =>
    if offset < audio.length then
      let e := min (offset + chunkSize) audio.length
      match tc (chunkSlice audio (offset, e)) with
      | Except.error err => some (Except.error err)
      | Except.ok text =>
        let results' := if text = "" then results else results ++ [text]
        if e = audio.length then
          some (Except.ok (String.intercalate " " results'))
        else
          transcribeChunkLoop tc audio chunkSize overlap fuel (e - overlap) results'
    else some (Except.ok (String.intercalate " " results))

/-- Body of `WhisperLocal::transcribe` (src/transcribe.rs lines 55-101):
audio of at most `chunk_size` samples is passed to `transcribe_chunk`
directly; longer audio goes through the overlapping chunk loop. -/
def WhisperLocal.transcribe {α : Type} (tc : List α → Except String String)
    (audio : List α) (sampleRate : Nat) : Option (Except String String) :=
  let chunkSize := CHUNK_DURATION_SECS * sampleRate
  let overlap := OVERLAP_SECS * sampleRate
  if audio.length ≤ chunkSize then
    some (tc audio)
  else
    transcribeChunkLoop tc audio chunkSize overlap audio.length 0 []

/-- Specification-side description of the (offset, end) spans the chunk
loop visits, mirroring the loop's branch structure with the same fuel.
This definition exists only to state properties of the loop. -/
def chunkSpansSpec (n chunkSize overlap : Nat) : Nat → Nat → Option (List (Nat × Nat))
  | 0, _ => none
  | fuel + 1, offset =>
    if offset < n then
      let e := min (offset + chunkSize) n
      if e = n then some [(offset, e)]
      else
        match chunkSpansSpec n chunkSize overlap fuel (e - overlap) with
        | none => none
        | some rest => some ((offset, e) :: rest)
    else some []

/-- Adjacency checker for spans: each successive span begins exactly
`overlap` samples before the previous span's end. -/
def adjOverlap (overlap : Nat) : List (Nat × Nat) → Bool
  | [] => true
  | [_] => true
  | a :: b :: rest => (b.1 == a.2 - overlap) && adjOverlap overlap (b :: rest)

/- ### Audio recorder (src/audio.rs) -/

/-- State of `AudioRecorder` relevant to `stop`: the configured sample
rate and the sample buffer filled by the capture callback. The cpal
stream handle (paused and leaked by `stop`) carries no data and is not
modelled. -/
structure AudioRecorder where
  sampleRate : Nat
  buffer : List Float

/-- Body of `AudioRecorder::stop` (src/audio.rs lines 134-166): an empty
buffer is an error; otherwise the last `sample_rate * 5 / 1000` samples
are faded out linearly (f32 arithmetic modelled as Float) and the buffer
is returned. -/
def AudioRecorder.stop (r : AudioRecorder) : Except String (List Float) :=
  let buffer := r.buffer
  if buffer.isEmpty then
    Except.error "no audio data captured"
  else
    let fadeSamples := r.sampleRate * 5 / 1000
    let fadeLen := min fadeSamples buffer.length
    let start := buffer.length - fadeLen
    Except.ok (buffer.mapIdx (fun i s =>
      if start ≤ i then
        s * (1.0 - (Nat.toFloat (i - start) / Nat.toFloat fadeLen))
      else s))

/- ### Session controller loop (src/app.rs) -/

/-- Controller states (`AppState` in src/app.rs). `injecting` is entered
and left within a single loop iteration. -/
inductive AppState where
  | idle
  | recording
  | transcribing
  | injecting
deriving DecidableEq

/-- Hotkey modes (`HotkeyMode` in the configuration, as matched on in
`App::run`). -/
inductive HotkeyMode where
  | toggle
  | pushToTalk
deriving DecidableEq

/-- Observable calls made by one invocation, in program order. `modelLoad`
is in the vocabulary so that claims about model loading can be stated;
the loop never emits it. -/
inductive Act where
  | tryCreate
  | removeFile
  | kill (pid : Nat)
  | loadConfig
  | playStart
  | playStop
  | recorderStart
  | recorderStop
  | transcribeCall
  | injectCall
  | modelLoad
deriving DecidableEq

/-- Position of the first occurrence of an action in a trace (length of
the trace when absent). -/
def firstPos (a : Act) : List Act → Nat
  | [] => 0
  | b :: r => if b = a then 0 else firstPos a r + 1

/-- Count of occurrences of an action in a trace. -/
def countAct (a : Act) : List Act → Nat
  | [] => 0
  | b :: r => (if b = a then 1 else 0) + countAct a r

/-- Outcomes of the external calls one loop iteration of `App::run` can
make: `recorder.start()`, `recorder.stop()`, `backend.transcribe(..)`,
`injector.inject(..)`. -/
structure StepEnv where
  startResult : Except String Unit
  stopResult : Except String (List Float)
  transcribeResult : Except String String
  injectResult : Except String Unit

/-- The `Idle + Pressed` transition body of `App::run` (src/app.rs lines
86-96 for toggle mode, 143-153 for push-to-talk): set state to
`Recording`, play the start cue (blocking), then start the recorder;
a start failure logs and falls back to `Idle`. -/
def startTransition (env : StepEnv) : AppState × List Act :=
  match env.startResult with
  | Except.error _ => (AppState.idle, [Act.playStart, Act.recorderStart])
  | Except.ok _ => (AppState.recording, [Act.playStart, Act.recorderStart])

/-- The `Recording + (Pressed|Released)` transition body of `App::run`
(src/app.rs lines 98-140 for toggle mode, 155-197 for push-to-talk):
set state to `Transcribing`, play the stop cue (blocking), then stop the
recorder; on stop failure fall back to `Idle`; otherwise transcribe;
empty text or a transcription error falls back to `Idle`; non-empty text
is injected (the inject result only being logged) and the state returns
to `Idle`. -/
def stopTransition (env : StepEnv) : AppState × List Act :=
  match env.stopResult with
  | Except.error _ => (AppState.idle, [Act.playStop, Act.recorderStop])
  | Except.ok _audio =>
    match env.transcribeResult with
    | Except.ok text =>
      if text = "" then
        (AppState.idle, [Act.playStop, Act.recorderStop, Act.transcribeCall])
      else
        (AppState.idle,
          [Act.playStop, Act.recorderStop, Act.transcribeCall, Act.injectCall])
    | Except.error _ =>
      (AppState.idle, [Act.playStop, Act.recorderStop, Act.transcribeCall])

/-- The `match (&state, &event, &hotkey_mode)` dispatch of `App::run`
(src/app.rs lines 84-203); every other combination is ignored. -/
def appStep (state : AppState) (ev : HotkeyEvent) (mode : HotkeyMode)
    (env : StepEnv) : AppState × List Act :=
  match state, ev, mode with
  | AppState.idle, HotkeyEvent.pressed, HotkeyMode.toggle => startTransition env
  | AppState.recording, HotkeyEvent.pressed, HotkeyMode.toggle => stopTransition env
  | AppState.idle, HotkeyEvent.pressed, HotkeyMode.pushToTalk => startTransition env
  | AppState.recording, HotkeyEvent.released, HotkeyMode.pushToTalk => stopTransition env
  | s, _, _ => (s, [])

/-- One wakeup of the `tokio::select!` in `App::run`: either the shutdown
watch fired with value true, or a hotkey event arrived together with the
outcomes of the external calls its handling will make. Channel closure
(`recv` returning `None`) is modelled by the event list ending. -/
inductive LoopEvent where
  | shutdown
  | hotkey (ev : HotkeyEvent) (env : StepEnv)

/-- The main loop of `App::run` folded over a finite wakeup list:
shutdown (or channel closure) breaks the loop; a hotkey event is
dispatched through `appStep`. Returns the final state and the trace. -/
def appLoop (mode : HotkeyMode) : AppState → List LoopEvent → AppState × List Act
  | s, [] => (s, [])
  | s, LoopEvent.shutdown :: _ => (s, [])
  | s, LoopEvent.hotkey ev env :: rest =>
    let r := appStep s ev mode env
    let r' := appLoop mode r.1 rest
    (r'.1, r.2 ++ r'.2)

/-- Whole-run result of `App::run` (src/app.rs lines 42-210): before the
loop is entered, `HotkeyMonitor::new(&self.config.hotkey)?` (line 53)
can fail and that error propagates out of `run`; `monitorResult` is the
outcome of that call (no action of the `Act` vocabulary precedes it).
Once the loop is reached it swallows every per-session error, so every
exit from the loop returns `Ok(())`. The transcription backend is a
field of `App` constructed before `run` is called (`App::new`), which is
why no loop action ever loads a model. -/
def App.run (monitorResult : Except String Unit) (mode : HotkeyMode)
    (events : List LoopEvent) : Except String Unit × AppState × List Act :=
  match monitorResult with
  | Except.error e => (Except.error e, AppState.idle, [])
  | Except.ok _ =>
    let r := appLoop mode AppState.idle events
    (Except.ok (), r.1, r.2)

/-- Modelled from the spec: the free function `app::run(config)` invoked
at src/main.rs line 209 is code of this repository that is not under
src/ (only its caller is present). Per the spec it is the session entry
point: it constructs the transcription engine once through the blocking
ModelLoader (`load(path) -> Result<EngineHandle>`), whose failure is
fatal for the session, and then runs the controller (`App::run`),
returning its result. `backendLoad` is the engine-load outcome; the load
is the invocation's one model-load action, performed before the
controller loop starts. -/
def app_run_config (backendLoad monitorResult : Except String Unit)
    (mode : HotkeyMode) (events : List LoopEvent) :
    Except String Unit × AppState × List Act :=
  match backendLoad with
  | Except.error e => (Except.error e, AppState.idle, [Act.modelLoad])
  | Except.ok _ =>
    let r := App.run monitorResult mode events
    (r.1, r.2.1, Act.modelLoad :: r.2.2)

/- ### Single-instance lock (src/main.rs) -/

/-- The errno value `libc::ESRCH` ("no such process"). -/
def ESRCH : Nat := 3

/-- Observations `pid_belongs_to_whspr` (src/main.rs lines 47-82) makes
about a recorded pid: whether `/proc/pid` exists, the canonicalized
paths of the current and target executables (none on failure), the file
name of the current executable, and the basename of the first
NUL-separated `cmdline` argument (none when the read fails, the first
argument is missing or empty, or it has no file name). -/
structure PidProbe where
  alive : Bool
  currentExeCanon : Option String
  targetExeCanon : Option String
  currentExeBase : Option String
  cmdlineFirstBase : Option String

/-- Body of `pid_belongs_to_whspr`: a dead process never matches; a
canonical-executable match succeeds immediately; otherwise the basename
of the peer's first cmdline argument is compared against the current
executable's file name (defaulting to "whspr-rs"). -/
def pid_belongs_to_whspr (p : PidProbe) : Bool :=
  if p.alive = false then false
  else
    let exeEq := match p.currentExeCanon, p.targetExeCanon with
      | some c, some t => c == t
      | _, _ => false
    if exeEq then true
    else
      let currentName := p.currentExeBase.getD "whspr-rs"
      match p.cmdlineFirstBase with
      | none => false
      | some b => b = currentName

/-- Result of one `try_acquire_pid_lock` call (exclusive `create_new`):
success, the path already exists, or another I/O error. -/
inductive CreateResult where
  | ok
  | alreadyExists
  | otherErr (e : String)
deriving DecidableEq

/-- Environment of one iteration of the acquisition loop: the outcome of
its `try_acquire_pid_lock` call and, should the path be occupied, what
`signal_existing_instance` observes — the pid parsed from the lock file
(none when the read or parse fails), the `pid_belongs_to_whspr` probe,
and the errno of the `kill(pid, SIGUSR1)` call (none on success). -/
structure AttemptEnv where
  create : CreateResult
  readPid : Option Nat
  probe : PidProbe
  killErrno : Option Nat

/-- Body of `signal_existing_instance` (src/main.rs lines 99-129):
an unreadable pid or a non-whspr process removes the stale file and
returns `Ok(false)`; a successful SIGUSR1 returns `Ok(true)`; a kill
failing with ESRCH removes the file and returns `Ok(false)`; any other
kill failure is an error. The returned trace lists the calls made. -/
def signal_existing_instance (env : AttemptEnv) : List Act × Except String Bool :=
  match env.readPid with
  | none => ([Act.removeFile], Except.ok false)
  | some pid =>
    if pid_belongs_to_whspr env.probe = false then
      ([Act.removeFile], Except.ok false)
    else
      match env.killErrno with
      | none => ([Act.kill pid], Except.ok true)
      | some errno =>
        if errno = ESRCH then
          ([Act.kill pid, Act.removeFile], Except.ok false)
        else
          ([Act.kill pid], Except.error "failed to signal pid")

/-- One iteration of the `for _ in 0..2` loop in `acquire_or_signal_lock`
(src/main.rs lines 134-144): `some r` means the function returns `r`
from this iteration (`Ok(Some lock)` is `ok (some ())`, `Ok(None)` is
`ok none`); `none` means the iteration fell through and the loop
continues. -/
def acquireIter (env : AttemptEnv) : List Act × Option (Except String (Option Unit)) :=
  match env.create with
  | CreateResult.ok => ([Act.tryCreate], some (Except.ok (some ())))
  | CreateResult.alreadyExists =>
    let s := signal_existing_instance env
    match s.2 with
    | Except.ok true => (Act.tryCreate :: s.1, some (Except.ok none))
    | Except.ok false => (Act.tryCreate :: s.1, none)
    | Except.error e => (Act.tryCreate :: s.1, some (Except.error e))
  | CreateResult.otherErr e => ([Act.tryCreate], some (Except.error e))

/-- Body of `acquire_or_signal_lock` (src/main.rs lines 131-150): the
two-iteration loop unrolled, with the post-loop failure when both
iterations fall through. -/
def acquire_or_signal_lock (env0 env1 : AttemptEnv) :
    List Act × Except String (Option Unit) :=
  match acquireIter env0 with
  | (tr0, some r) => (tr0, r)
  | (tr0, none) =>
    match acquireIter env1 with
    | (tr1, some r) => (tr0 ++ tr1, r)
    | (tr1, none) => (tr0 ++ tr1, Except.error "failed to acquire pid lock")

/-- Body of `run_default` (src/main.rs lines 198-210): a lock-acquisition
error propagates; `Ok(None)` (signal sent to a running instance) returns
success immediately; otherwise the config is loaded and the session
entry point `app::run(config)` is run, whose result — given as the
`appResult` argument, instantiated with the spec-modelled
`app_run_config` — is returned as is. -/
def run_default (env0 env1 : AttemptEnv) (configLoad : Except String Unit)
    (appResult : Except String Unit × AppState × List Act) :
    List Act × Except String Unit :=
  let a := acquire_or_signal_lock env0 env1
  match a.2 with
  | Except.error e => (a.1, Except.error e)
  | Except.ok none => (a.1, Except.ok ())
  | Except.ok (some _) =>
    match configLoad with
    | Except.error e => (a.1 ++ [Act.loadConfig], Except.error e)
    | Except.ok _ => (a.1 ++ [Act.loadConfig] ++ appResult.2.2, appResult.1)

/-- Process exit status of `main` (src/main.rs lines 212-236): `main`
returns `crate::error::Result<()>`, so `Ok` terminates the process with
status 0 and `Err` with the non-zero failure status 1. -/
def exitCode (r : Except String Unit) : Nat :=
  match r with
  | Except.ok _ => 0
  | Except.error _ => 1

/- ### Lemmas about the hotkey monitor -/

theorem hotkeyStep_cases (targets held : List Nat) (active : Bool) (ev : KeyInput) :
    ((hotkeyStep targets held active ev).2.2 = [] ∧
      (hotkeyStep targets held active ev).2.1 = active) ∨
    (active = false ∧ (hotkeyStep targets held active ev).2.1 = true ∧
      (hotkeyStep targets held active ev).2.2 = [HotkeyEvent.pressed]) ∨
    (active = true ∧ (hotkeyStep targets held active ev).2.1 = false ∧
      (hotkeyStep targets held active ev).2.2 = [HotkeyEvent.released]) := by
  unfold hotkeyStep
  split_ifs with h1 h2 h3 h4 <;> simp_all <;> split_ifs with h5 <;> simp_all

theorem altFrom_hotkeyRun :
    ∀ (evs : List KeyInput) (targets held : List Nat) (active : Bool),
      altFrom (!active) (hotkeyRun targets held active evs) = true := by
  intro evs
  induction evs with
  | nil => intro targets held active; cases active <;> simp [hotkeyRun, altFrom]
  | cons ev rest ih =>
    intro targets held active
    have hrun : hotkeyRun targets held active (ev :: rest) =
        (hotkeyStep targets held active ev).2.2 ++
          hotkeyRun targets (hotkeyStep targets held active ev).1
            (hotkeyStep targets held active ev).2.1 rest := rfl
    rw [hrun]
    rcases hotkeyStep_cases targets held active ev with ⟨h1, h2⟩ | ⟨h1, h2, h3⟩ | ⟨h1, h2, h3⟩
    · rw [h1, h2]
      simpa using ih targets _ active
    · subst h1
      rw [h2, h3]
      simpa [altFrom] using ih targets _ true
    · subst h1
      rw [h2, h3]
      simpa [altFrom] using ih targets _ false

/-- C9: over any finite keyboard input sequence the emitted `HotkeyEvent`
stream strictly alternates starting with `Pressed`; `Pressed` is emitted
exactly on a target-key press that makes the held keys cover the combo
while it was not active, `Released` exactly on a target-key release that
uncovers the combo while it was active; key repeats and non-target keys
emit nothing — hence two consecutive equal events are never sent. -/
theorem claim_C9_alternation (targets : List Nat) (evs : List KeyInput) :
    altFrom true (hotkeyRun targets [] false evs) = true ∧
    ∀ (held : List Nat) (active : Bool) (ev : KeyInput),
      ((hotkeyStep targets held active ev).2.2 = [HotkeyEvent.pressed] ↔
        (ev.isKey = true ∧ keyMem ev.code targets = true ∧ ev.value = 1 ∧
          active = false ∧ coversTargets targets (keyInsert ev.code held) = true)) ∧
      ((hotkeyStep targets held active ev).2.2 = [HotkeyEvent.released] ↔
        (ev.isKey = true ∧ keyMem ev.code targets = true ∧ ev.value = 0 ∧
          active = true ∧ coversTargets targets (keyRemove ev.code held) = false)) ∧
      (ev.value = 2 → (hotkeyStep targets held active ev).2.2 = []) ∧
      (keyMem ev.code targets = false → (hotkeyStep targets held active ev).2.2 = []) := by
  refine ⟨by simpa using altFrom_hotkeyRun evs targets [] false, ?_⟩
  intro held active ev
  unfold hotkeyStep
  split_ifs with h1 h2 h3 h4 <;> simp_all <;> split_ifs with h5 <;> simp_all

/-- Witness for C9 at a concrete input: with combo {7}, the sequence
press-7, repeat-7, release-7 emits an alternating stream, and the repeat
event alone emits nothing. -/
theorem claim_C9_witness :
    altFrom true (hotkeyRun [7] [] false
      [⟨true, 7, 1⟩, ⟨true, 7, 2⟩, ⟨true, 7, 0⟩]) = true ∧
    (hotkeyStep [7] [7] true ⟨true, 7, 2⟩).2.2 = [] :=
  ⟨(claim_C9_alternation [7]
      [⟨true, 7, 1⟩, ⟨true, 7, 2⟩, ⟨true, 7, 0⟩]).1,
   ((claim_C9_alternation [7] []).2 [7] true ⟨true, 7, 2⟩).2.2.1 rfl⟩

/- ### Lemmas about the controller loop -/

theorem startTransition_trace (env : StepEnv) :
    (startTransition env).2 = [Act.playStart, Act.recorderStart] := by
  unfold startTransition
  cases env.startResult <;> rfl

theorem stopTransition_state (env : StepEnv) :
    (stopTransition env).1 = AppState.idle := by
  unfold stopTransition
  rcases env.stopResult with _ | _
  · rfl
  · rcases env.transcribeResult with _ | t
    · rfl
    · by_cases ht : t = "" <;> simp [ht]

theorem stopTransition_take_two (env : StepEnv) :
    (stopTransition env).2.take 2 = [Act.playStop, Act.recorderStop] := by
  unfold stopTransition
  rcases env.stopResult with _ | _
  · rfl
  · rcases env.transcribeResult with _ | t
    · rfl
    · by_cases ht : t = "" <;> simp [ht]

theorem stopTransition_no_modelLoad (env : StepEnv) :
    Act.modelLoad ∉ (stopTransition env).2 := by
  unfold stopTransition
  rcases env.stopResult with _ | _
  · simp
  · rcases env.transcribeResult with _ | t
    · simp
    · by_cases ht : t = "" <;> simp [ht]

theorem appStep_no_modelLoad (s : AppState) (ev : HotkeyEvent) (mode : HotkeyMode)
    (env : StepEnv) : Act.modelLoad ∉ (appStep s ev mode env).2 := by
  cases s <;> cases ev <;> cases mode <;>
    simp only [appStep] <;>
    first
      | simp
      | (rw [startTransition_trace]; simp)
      | exact stopTransition_no_modelLoad env

theorem appLoop_no_modelLoad (mode : HotkeyMode) :
    ∀ (evs : List LoopEvent) (s : AppState),
      Act.modelLoad ∉ (appLoop mode s evs).2 := by
  intro evs
  induction evs with
  | nil => intro s; simp [appLoop]
  | cons e rest ih =>
    intro s
    cases e with
    | shutdown => simp [appLoop]
    | hotkey ev env =>
      show Act.modelLoad ∉ (appStep s ev mode env).2 ++ _
      rw [List.mem_append]
      rintro (h | h)
      · exact appStep_no_modelLoad s ev mode env h
      · exact ih _ h

/-- C1 counterexample: in the `Recording → Transcribing` transition of
`App::run` the stop cue call (`feedback.play_stop()`, line 101) comes
first and `recorder.stop()` (line 103) second, so at this concrete
environment the recorder stop does not precede the stop cue. -/
theorem claim_C1_counterexample :
    ¬ (firstPos Act.recorderStop
        (appStep AppState.recording HotkeyEvent.pressed HotkeyMode.toggle
          ⟨Except.ok (), Except.error "x", Except.ok "", Except.ok ()⟩).2 <
       firstPos Act.playStop
        (appStep AppState.recording HotkeyEvent.pressed HotkeyMode.toggle
          ⟨Except.ok (), Except.error "x", Except.ok "", Except.ok ()⟩).2) := by
  decide

/-- C1 as amended: on session start the blocking start cue call completes
before `recorder.start()` is invoked, but on stop the stop cue call
begins (and completes) before `recorder.stop()` is invoked — the code
plays the stop cue first, in both hotkey modes. -/
theorem claim_C1_cue_ordering (env : StepEnv) (mode : HotkeyMode) :
    (appStep AppState.idle HotkeyEvent.pressed mode env).2 =
      [Act.playStart, Act.recorderStart] ∧
    firstPos Act.playStart (appStep AppState.idle HotkeyEvent.pressed mode env).2 <
      firstPos Act.recorderStart (appStep AppState.idle HotkeyEvent.pressed mode env).2 ∧
    (appStep AppState.recording HotkeyEvent.pressed HotkeyMode.toggle env).2.take 2 =
      [Act.playStop, Act.recorderStop] ∧
    (appStep AppState.recording HotkeyEvent.released HotkeyMode.pushToTalk env).2.take 2 =
      [Act.playStop, Act.recorderStop] ∧
    firstPos Act.playStop
        (appStep AppState.recording HotkeyEvent.pressed HotkeyMode.toggle env).2 <
      firstPos Act.recorderStop
        (appStep AppState.recording HotkeyEvent.pressed HotkeyMode.toggle env).2 := by
  have hstart : (appStep AppState.idle HotkeyEvent.pressed mode env).2 =
      [Act.playStart, Act.recorderStart] := by
    cases mode <;> simp only [appStep] <;> exact startTransition_trace env
  have hstop1 : (appStep AppState.recording HotkeyEvent.pressed HotkeyMode.toggle env).2 =
      (stopTransition env).2 := rfl
  have hstop2 : (appStep AppState.recording HotkeyEvent.released HotkeyMode.pushToTalk env).2 =
      (stopTransition env).2 := rfl
  refine ⟨hstart, ?_, ?_, ?_, ?_⟩
  · rw [hstart]; decide
  · rw [hstop1]; exact stopTransition_take_two env
  · rw [hstop2]; exact stopTransition_take_two env
  · rw [hstop1]
    have h2 := stopTransition_take_two env
    rcases htr : (stopTransition env).2 with _ | ⟨a, _ | ⟨b, rest⟩⟩ <;> rw [htr] at h2 <;>
      simp_all [List.take]
    · obtain ⟨ha, hb⟩ := h2
      subst ha; subst hb
      simp [firstPos]

/-- C5 counterexample: at entry to the `Recording` state (the
`Idle + Pressed` transition, src/app.rs lines 86-96) no model-preload
task is started — the transition's trace at this concrete environment
contains no model load. -/
theorem claim_C5_counterexample :
    ¬ (Act.modelLoad ∈ (appStep AppState.idle HotkeyEvent.pressed HotkeyMode.toggle
        ⟨Except.ok (), Except.ok [], Except.ok "", Except.ok ()⟩).2) := by
  decide

/-- C5 as amended: there is no per-session model-preload task — the
transcription backend is constructed once, before the controller loop
starts (`App::new` receives the already-built backend), and no loop
transition, including entry to `Recording` and entry to `Transcribing`,
ever performs a model load. -/
theorem claim_C5_no_preload_task (monitorResult : Except String Unit)
    (mode : HotkeyMode) (evs : List LoopEvent) :
    Act.modelLoad ∉ (App.run monitorResult mode evs).2.2 ∧
    ∀ (s : AppState) (ev : HotkeyEvent) (env : StepEnv),
      Act.modelLoad ∉ (appStep s ev mode env).2 := by
  refine ⟨?_, fun s ev env => appStep_no_modelLoad s ev mode env⟩
  cases monitorResult with
  | error e => simp [App.run]
  | ok _ => exact appLoop_no_modelLoad mode evs AppState.idle

/-- C6: `AudioRecorder::stop` on an empty captured buffer returns the
error "no audio data captured" rather than an empty buffer, and the
`Recording` exit transition that receives this error ends the session
(state back to `Idle`) without ever calling the transcription backend,
in both hotkey modes. -/
theorem claim_C6_empty_buffer (rate : Nat) (env : StepEnv) :
    AudioRecorder.stop ⟨rate, []⟩ = Except.error "no audio data captured" ∧
    appStep AppState.recording HotkeyEvent.pressed HotkeyMode.toggle
        { env with stopResult := AudioRecorder.stop ⟨rate, []⟩ } =
      (AppState.idle, [Act.playStop, Act.recorderStop]) ∧
    appStep AppState.recording HotkeyEvent.released HotkeyMode.pushToTalk
        { env with stopResult := AudioRecorder.stop ⟨rate, []⟩ } =
      (AppState.idle, [Act.playStop, Act.recorderStop]) ∧
    Act.transcribeCall ∉ (appStep AppState.recording HotkeyEvent.pressed HotkeyMode.toggle
        { env with stopResult := AudioRecorder.stop ⟨rate, []⟩ }).2 := by
  refine ⟨rfl, rfl, rfl, ?_⟩
  show Act.transcribeCall ∉ [Act.playStop, Act.recorderStop]
  decide

/-- C7: a transcription result that is the empty string is treated as a
valid outcome — the transition performs no injection, the state returns
to `Idle`, and the result of any run that reaches the loop (hence the
process exit path) stays successful, in both hotkey modes. -/
theorem claim_C7_empty_text (env : StepEnv) (audio : List Float)
    (mode : HotkeyMode) (evs : List LoopEvent) :
    appStep AppState.recording HotkeyEvent.pressed HotkeyMode.toggle
        { env with stopResult := Except.ok audio, transcribeResult := Except.ok "" } =
      (AppState.idle, [Act.playStop, Act.recorderStop, Act.transcribeCall]) ∧
    appStep AppState.recording HotkeyEvent.released HotkeyMode.pushToTalk
        { env with stopResult := Except.ok audio, transcribeResult := Except.ok "" } =
      (AppState.idle, [Act.playStop, Act.recorderStop, Act.transcribeCall]) ∧
    Act.injectCall ∉ (appStep AppState.recording HotkeyEvent.pressed HotkeyMode.toggle
        { env with stopResult := Except.ok audio, transcribeResult := Except.ok "" }).2 ∧
    (App.run (Except.ok ()) mode evs).1 = Except.ok () := by
  have hs : stopTransition
      { env with stopResult := Except.ok audio, transcribeResult := Except.ok "" } =
      (AppState.idle, [Act.playStop, Act.recorderStop, Act.transcribeCall]) := by
    simp [stopTransition]
  refine ⟨hs, hs, ?_, rfl⟩
  have : (appStep AppState.recording HotkeyEvent.pressed HotkeyMode.toggle
      { env with stopResult := Except.ok audio, transcribeResult := Except.ok "" }).2 =
      [Act.playStop, Act.recorderStop, Act.transcribeCall] := by
    show (stopTransition _).2 = _
    rw [hs]
  rw [this]
  decide

/-- C4 counterexample: a run in which audio capture fails to start (the
recorder start outcome is an error, as the environment literal shows)
still terminates with process exit status 0 — the failure is logged and
the loop returns to `Idle`, so the claimed non-zero exit for
audio-start failure does not hold; the same loop also swallows
transcription failures. -/
theorem claim_C4_counterexample :
    exitCode (run_default
      ⟨CreateResult.ok, none, ⟨false, none, none, none, none⟩, none⟩
      ⟨CreateResult.ok, none, ⟨false, none, none, none, none⟩, none⟩
      (Except.ok ())
      (app_run_config (Except.ok ()) (Except.ok ()) HotkeyMode.toggle
        [LoopEvent.hotkey HotkeyEvent.pressed
          ⟨Except.error "no default input device found", Except.ok [],
            Except.ok "", Except.ok ()⟩,
         LoopEvent.shutdown])).2 = 0 ∧
    Act.recorderStart ∈ (app_run_config (Except.ok ()) (Except.ok ()) HotkeyMode.toggle
        [LoopEvent.hotkey HotkeyEvent.pressed
          ⟨Except.error "no default input device found", Except.ok [],
            Except.ok "", Except.ok ()⟩,
         LoopEvent.shutdown]).2.2 := by
  constructor
  · rfl
  · decide

/-- C4 as amended: the process exit status of the default invocation is
0 for every path that reaches the controller loop — covering normal
completion, the empty-transcription path, logged delivery failures, and
also the logged audio-start and transcription failures, which never make
the exit non-zero — and 0 when the invocation only signalled a running
peer; it is non-zero exactly for the pre-loop failures: lock
acquisition, config loading, the transcription-engine (model) load in
the session entry point, and hotkey-monitor setup. -/
theorem claim_C4_exit_codes (e0 e1 : AttemptEnv)
    (cfg backendLoad monitorResult : Except String Unit)
    (mode : HotkeyMode) (evs : List LoopEvent) :
    (run_default e0 e1 cfg
        (app_run_config backendLoad monitorResult mode evs)).2 =
      (match (acquire_or_signal_lock e0 e1).2 with
       | Except.error e => Except.error e
       | Except.ok none => Except.ok ()
       | Except.ok (some _) =>
         match cfg with
         | Except.error e => Except.error e
         | Except.ok _ =>
           match backendLoad with
           | Except.error e => Except.error e
           | Except.ok _ =>
             match monitorResult with
             | Except.error e => Except.error e
             | Except.ok _ => Except.ok ()) ∧
    exitCode (run_default e0 e1 cfg
        (app_run_config backendLoad monitorResult mode evs)).2 =
      (match (acquire_or_signal_lock e0 e1).2, cfg, backendLoad, monitorResult with
       | Except.error _, _, _, _ => 1
       | Except.ok none, _, _, _ => 0
       | Except.ok (some _), Except.error _, _, _ => 1
       | Except.ok (some _), _, Except.error _, _ => 1
       | Except.ok (some _), _, _, Except.error _ => 1
       | Except.ok (some _), Except.ok _, Except.ok _, Except.ok _ => 0) := by
  rcases hA : acquire_or_signal_lock e0 e1 with ⟨tr, r⟩
  rcases r with e | o
  · simp [run_default, hA, exitCode]
  · rcases o with _ | u
    · simp [run_default, hA, exitCode]
    · cases cfg with
      | error e => simp [run_default, hA, exitCode]
      | ok _ =>
        cases backendLoad with
        | error e => simp [run_default, hA, exitCode, app_run_config]
        | ok _ =>
          cases monitorResult with
          | error e => simp [run_default, hA, exitCode, app_run_config, App.run]
          | ok _ => simp [run_default, hA, exitCode, app_run_config, App.run]

/- ### Lemmas about lock acquisition -/

theorem countAct_append (a : Act) (l1 l2 : List Act) :
    countAct a (l1 ++ l2) = countAct a l1 + countAct a l2 := by
  induction l1 with
  | nil => simp [countAct]
  | cons b r ih => simp [countAct, ih]; ring

theorem signal_no_tryCreate (env : AttemptEnv) :
    countAct Act.tryCreate (signal_existing_instance env).1 = 0 := by
  unfold signal_existing_instance
  rcases env.readPid with _ | pid
  · rfl
  · by_cases hb : pid_belongs_to_whspr env.probe = false
    · simp [hb, countAct]
    · simp only [hb, if_false]
      rcases env.killErrno with _ | errno
      · simp [countAct]
      · by_cases he : errno = ESRCH <;> simp [he, countAct]

theorem signal_stale (env : AttemptEnv)
    (h : env.readPid = none ∨ pid_belongs_to_whspr env.probe = false) :
    signal_existing_instance env = ([Act.removeFile], Except.ok false) := by
  unfold signal_existing_instance
  rcases h with h | h
  · rw [h]
  · rcases env.readPid with _ | pid
    · rfl
    · simp [h]

theorem acquireIter_one_tryCreate (env : AttemptEnv) :
    countAct Act.tryCreate (acquireIter env).1 = 1 := by
  have h0 := signal_no_tryCreate env
  unfold acquireIter
  rcases env.create with _ | _ | e
  · simp [countAct]
  · rcases hs : (signal_existing_instance env).2 with e | b
    · simp [hs, countAct, h0]
    · cases b <;> simp [hs, countAct, h0]
  · simp [countAct]

theorem acquire_tryCreate_le_two (f0 f1 : AttemptEnv) :
    countAct Act.tryCreate (acquire_or_signal_lock f0 f1).1 ≤ 2 := by
  have c0 := acquireIter_one_tryCreate f0
  have c1 := acquireIter_one_tryCreate f1
  unfold acquire_or_signal_lock
  rcases h0 : acquireIter f0 with ⟨tr0, r0⟩
  rw [h0] at c0
  rcases r0 with _ | r0
  · rcases h1 : acquireIter f1 with ⟨tr1, r1⟩
    rw [h1] at c1
    rcases r1 with _ | r1 <;> simp [countAct_append, c0, c1]
  · simp [c0]

/-- C2: an invocation finding the lock path occupied by a stale lock
(pid unreadable/unparseable, or `pid_belongs_to_whspr` false — the pid
dead or not an instance of this program) deletes the stale file and
retries exclusive creation exactly once (two create attempts in total);
a successful retry acquires the lock, while a retry that again finds the
path occupied without a signalable valid owner fails with an error, and
no third create attempt is ever made. -/
theorem claim_C2_stale_retry (e0 e1 : AttemptEnv)
    (h0 : e0.create = CreateResult.alreadyExists)
    (hstale : e0.readPid = none ∨ pid_belongs_to_whspr e0.probe = false) :
    (countAct Act.tryCreate (acquire_or_signal_lock e0 e1).1 = 2 ∧
     Act.removeFile ∈ (acquire_or_signal_lock e0 e1).1 ∧
     (e1.create = CreateResult.ok →
       acquire_or_signal_lock e0 e1 =
         ([Act.tryCreate, Act.removeFile, Act.tryCreate], Except.ok (some ()))) ∧
     (e1.create = CreateResult.alreadyExists →
       (signal_existing_instance e1).2 = Except.ok false →
       (acquire_or_signal_lock e0 e1).2 =
         Except.error "failed to acquire pid lock")) ∧
    ∀ (f0 f1 : AttemptEnv),
      countAct Act.tryCreate (acquire_or_signal_lock f0 f1).1 ≤ 2 := by
  have hiter0 : acquireIter e0 = ([Act.tryCreate, Act.removeFile], none) := by
    unfold acquireIter
    rw [h0, signal_stale e0 hstale]
  have hacq : acquire_or_signal_lock e0 e1 =
      match acquireIter e1 with
      | (tr1, some r) => ([Act.tryCreate, Act.removeFile] ++ tr1, r)
      | (tr1, none) => ([Act.tryCreate, Act.removeFile] ++ tr1,
          Except.error "failed to acquire pid lock") := by
    unfold acquire_or_signal_lock
    rw [hiter0]
  refine ⟨⟨?_, ?_, ?_, ?_⟩, acquire_tryCreate_le_two⟩
  · have c1 := acquireIter_one_tryCreate e1
    rcases h1 : acquireIter e1 with ⟨tr1, r1⟩
    rw [h1] at c1
    rw [hacq, h1]
    rcases r1 with _ | r1 <;> simp [countAct_append, countAct, c1]
  · rcases h1 : acquireIter e1 with ⟨tr1, r1⟩
    rw [hacq, h1]
    rcases r1 with _ | r1 <;> simp
  · intro hok
    have h1 : acquireIter e1 = ([Act.tryCreate], some (Except.ok (some ()))) := by
      unfold acquireIter
      rw [hok]
    rw [hacq, h1]
    rfl
  · intro hae hsig
    rw [hacq]
    unfold acquireIter
    rw [hae]
    simp [hsig]

/-- Witness for C2 at a concrete input: the first attempt finds a lock
file whose pid does not parse, removes it, and the single retry
acquires the lock. -/
theorem claim_C2_witness :
    acquire_or_signal_lock
        ⟨CreateResult.alreadyExists, none, ⟨false, none, none, none, none⟩, none⟩
        ⟨CreateResult.ok, none, ⟨false, none, none, none, none⟩, none⟩ =
      ([Act.tryCreate, Act.removeFile, Act.tryCreate], Except.ok (some ())) :=
  ((claim_C2_stale_retry
      ⟨CreateResult.alreadyExists, none, ⟨false, none, none, none, none⟩, none⟩
      ⟨CreateResult.ok, none, ⟨false, none, none, none, none⟩, none⟩
      rfl (Or.inl rfl)).1.2.2.1) rfl

/-- C3: an invocation that finds the lock held by a live, valid instance
of the program sends exactly one SIGUSR1 to the recorded pid and returns
success immediately — its trace is just the create attempt and the kill,
with no audio, model-loading, or transcription work and exit status 0. -/
theorem claim_C3_signal_peer (e0 e1 : AttemptEnv) (pid : Nat)
    (cfg : Except String Unit) (app : Except String Unit × AppState × List Act)
    (h0 : e0.create = CreateResult.alreadyExists)
    (hp : e0.readPid = some pid)
    (hb : pid_belongs_to_whspr e0.probe = true)
    (hk : e0.killErrno = none) :
    run_default e0 e1 cfg app = ([Act.tryCreate, Act.kill pid], Except.ok ()) ∧
    countAct (Act.kill pid) (run_default e0 e1 cfg app).1 = 1 ∧
    exitCode (run_default e0 e1 cfg app).2 = 0 ∧
    Act.recorderStart ∉ (run_default e0 e1 cfg app).1 ∧
    Act.modelLoad ∉ (run_default e0 e1 cfg app).1 ∧
    Act.transcribeCall ∉ (run_default e0 e1 cfg app).1 := by
  have hsig : signal_existing_instance e0 = ([Act.kill pid], Except.ok true) := by
    unfold signal_existing_instance
    rw [hp]
    simp [hb, hk]
  have hiter : acquireIter e0 = ([Act.tryCreate, Act.kill pid], some (Except.ok none)) := by
    unfold acquireIter
    rw [h0]
    simp [hsig]
  have hacq : acquire_or_signal_lock e0 e1 = ([Act.tryCreate, Act.kill pid], Except.ok none) := by
    unfold acquire_or_signal_lock
    rw [hiter]
  have hrd : run_default e0 e1 cfg app = ([Act.tryCreate, Act.kill pid], Except.ok ()) := by
    unfold run_default
    rw [hacq]
  rw [hrd]
  refine ⟨rfl, ?_, rfl, ?_, ?_, ?_⟩
  · simp [countAct]
  · simp
  · simp
  · simp

/-- Witness for C3 at a concrete input: the lock records pid 42 of a
process whose canonical executable matches ours; the invocation's whole
effect is one create attempt and one SIGUSR1 to pid 42, exiting 0. -/
theorem claim_C3_witness :
    run_default
        ⟨CreateResult.alreadyExists, some 42,
          ⟨true, some "/usr/bin/whspr-rs", some "/usr/bin/whspr-rs",
            some "whspr-rs", none⟩, none⟩
        ⟨CreateResult.ok, none, ⟨false, none, none, none, none⟩, none⟩
        (Except.ok ()) (app_run_config (Except.ok ()) (Except.ok ()) HotkeyMode.toggle []) =
      ([Act.tryCreate, Act.kill 42], Except.ok ()) :=
  (claim_C3_signal_peer
      ⟨CreateResult.alreadyExists, some 42,
        ⟨true, some "/usr/bin/whspr-rs", some "/usr/bin/whspr-rs",
          some "whspr-rs", none⟩, none⟩
      ⟨CreateResult.ok, none, ⟨false, none, none, none, none⟩, none⟩
      42 (Except.ok ()) (app_run_config (Except.ok ()) (Except.ok ()) HotkeyMode.toggle [])
      rfl rfl (by decide) rfl).1

/-- C8: when signaling a validated live owner fails with ESRCH, the lock
file is removed and the whole acquisition loop runs a second create
attempt (the race-with-exiting-owner recovery); any other kill errno
makes `signal_existing_instance` return an error that
`acquire_or_signal_lock` propagates fatally, with no file removal and no
retry. -/
theorem claim_C8_esrch_race (e0 e1 : AttemptEnv) (pid errno : Nat)
    (h0 : e0.create = CreateResult.alreadyExists)
    (hp : e0.readPid = some pid)
    (hb : pid_belongs_to_whspr e0.probe = true)
    (hk : e0.killErrno = some errno) :
    (errno = ESRCH →
      (acquire_or_signal_lock e0 e1).1 =
        [Act.tryCreate, Act.kill pid, Act.removeFile] ++ (acquireIter e1).1 ∧
      countAct Act.tryCreate (acquire_or_signal_lock e0 e1).1 = 2) ∧
    (errno ≠ ESRCH →
      acquire_or_signal_lock e0 e1 =
        ([Act.tryCreate, Act.kill pid], Except.error "failed to signal pid")) := by
  constructor
  · intro he
    have hsig : signal_existing_instance e0 =
        ([Act.kill pid, Act.removeFile], Except.ok false) := by
      unfold signal_existing_instance
      rw [hp]
      simp [hb, hk, he]
    have hiter : acquireIter e0 = ([Act.tryCreate, Act.kill pid, Act.removeFile], none) := by
      unfold acquireIter
      rw [h0]
      simp [hsig]
    have htr : (acquire_or_signal_lock e0 e1).1 =
        [Act.tryCreate, Act.kill pid, Act.removeFile] ++ (acquireIter e1).1 := by
      unfold acquire_or_signal_lock
      rw [hiter]
      rcases h1 : acquireIter e1 with ⟨tr1, r1⟩
      rcases r1 with _ | r1 <;> simp [h1]
    refine ⟨htr, ?_⟩
    rw [htr, countAct_append]
    have c1 := acquireIter_one_tryCreate e1
    simp [countAct, c1]
  · intro hne
    have hsig : signal_existing_instance e0 =
        ([Act.kill pid], Except.error "failed to signal pid") := by
      unfold signal_existing_instance
      rw [hp]
      simp [hb, hk, hne]
    have hiter : acquireIter e0 =
        ([Act.tryCreate, Act.kill pid], some (Except.error "failed to signal pid")) := by
      unfold acquireIter
      rw [h0]
      simp [hsig]
    unfold acquire_or_signal_lock
    rw [hiter]

/-- Witness for C8 at a concrete input: the owner pid 42 validates but
the kill fails with ESRCH (3); the file is removed and a second create
attempt is made. -/
theorem claim_C8_witness :
    countAct Act.tryCreate (acquire_or_signal_lock
        ⟨CreateResult.alreadyExists, some 42,
          ⟨true, some "/usr/bin/whspr-rs", some "/usr/bin/whspr-rs",
            some "whspr-rs", none⟩, some 3⟩
        ⟨CreateResult.ok, none, ⟨false, none, none, none, none⟩, none⟩).1 = 2 :=
  ((claim_C8_esrch_race
      ⟨CreateResult.alreadyExists, some 42,
        ⟨true, some "/usr/bin/whspr-rs", some "/usr/bin/whspr-rs",
          some "whspr-rs", none⟩, some 3⟩
      ⟨CreateResult.ok, none, ⟨false, none, none, none, none⟩, none⟩
      42 3 rfl rfl (by decide) rfl).1 rfl).2

/- ### Lemmas about the chunk loop -/

theorem chunkSpans_exists (n cs ov : Nat) (hcs : ov < cs) :
    ∀ (fuel offset : Nat), offset < n → n - offset ≤ fuel →
    ∃ sp, chunkSpansSpec n cs ov fuel offset = some sp ∧
      (sp.map Prod.fst).head? = some offset ∧
      (sp.map Prod.snd).getLast? = some n ∧
      (∀ p ∈ sp, p.1 < p.2 ∧ p.2 ≤ n ∧ p.2 - p.1 ≤ cs) ∧
      adjOverlap ov sp = true ∧
      (∀ i, offset ≤ i → i < n → ∃ p ∈ sp, p.1 ≤ i ∧ i < p.2) := by
  intro fuel
  induction fuel with
  | zero => intro offset h1 h2; omega
  | succ fuel ih =>
    intro offset h1 h2
    by_cases he : min (offset + cs) n = n
    · have hcap : n ≤ offset + cs := by
        rcases Nat.le_total n (offset + cs) with h | h
        · exact h
        · have := min_eq_left h
          omega
      refine ⟨[(offset, n)], ?_, ?_, ?_, ?_, ?_, ?_⟩
      · simp [chunkSpansSpec, h1, he]
      · simp
      · simp
      · intro p hp
        simp only [List.mem_singleton] at hp
        subst hp
        exact ⟨h1, le_refl n, by omega⟩
      · rfl
      · intro i hi1 hi2
        exact ⟨(offset, n), by simp, hi1, hi2⟩
    · have hlt : offset + cs < n := by
        rcases Nat.lt_or_ge (offset + cs) n with h | h
        · exact h
        · exact absurd (min_eq_right h) he
      have hemin : min (offset + cs) n = offset + cs := min_eq_left (le_of_lt hlt)
      have h1' : offset + cs - ov < n := by omega
      have h2' : n - (offset + cs - ov) ≤ fuel := by omega
      obtain ⟨sp, hsp, hA, hB, hC, hD, hE⟩ := ih (offset + cs - ov) h1' h2'
      have hspne : sp ≠ [] := by
        intro hnil
        rw [hnil] at hA
        simp at hA
      refine ⟨(offset, offset + cs) :: sp, ?_, ?_, ?_, ?_, ?_, ?_⟩
      · simp only [chunkSpansSpec, hemin, if_pos h1]
        rw [if_neg (by omega : ¬ offset + cs = n), hsp]
      · simp
      · rcases sp with _ | ⟨q, sp'⟩
        · exact absurd rfl hspne
        · simpa using hB
      · intro p hp
        rcases List.mem_cons.mp hp with hp | hp
        · subst hp
          exact ⟨by omega, le_of_lt hlt, by omega⟩
        · exact hC p hp
      · rcases sp with _ | ⟨q, sp'⟩
        · exact absurd rfl hspne
        · have hq1 : q.1 = offset + cs - ov := by
            simp at hA
            exact hA
          show ((q.1 == offset + cs - ov) && adjOverlap ov (q :: sp')) = true
          rw [hq1]
          simpa using hD
      · intro i hi1 hi2
        by_cases hie : i < offset + cs
        · exact ⟨(offset, offset + cs), List.mem_cons_self _ _, hi1, hie⟩
        · have hge : offset + cs - ov ≤ i := by omega
          obtain ⟨p, hp, hpl, hpr⟩ := hE i hge hi2
          exact ⟨p, List.mem_cons_of_mem _ hp, hpl, hpr⟩

theorem chunkLoop_text {α : Type} (f : List α → String) (audio : List α) (cs ov : Nat) :
    ∀ (fuel offset : Nat) (acc : List String) (sp : List (Nat × Nat)),
      chunkSpansSpec audio.length cs ov fuel offset = some sp →
      offset < audio.length →
      transcribeChunkLoop (fun c => Except.ok (f c)) audio cs ov fuel offset acc =
        some (Except.ok (String.intercalate " "
          (acc ++ (sp.map (fun p => f (chunkSlice audio p))).filter
            (fun t => !(t == ""))))) := by
  intro fuel
  induction fuel with
  | zero =>
    intro offset acc sp hsp hoff
    simp [chunkSpansSpec] at hsp
  | succ fuel ih =>
    intro offset acc sp hsp hoff
    by_cases he : min (offset + cs) audio.length = audio.length
    · have h2 := hsp
      simp only [chunkSpansSpec, if_pos hoff, he, if_pos, Option.some.injEq] at h2
      subst h2
      simp only [transcribeChunkLoop, if_pos hoff, he]
      by_cases hf : f (chunkSlice audio (offset, audio.length)) = "" <;>
        simp [hf]
    · have hlt : offset + cs < audio.length := by
        rcases Nat.lt_or_ge (offset + cs) audio.length with h | h
        · exact h
        · exact absurd (min_eq_right h) he
      have hemin : min (offset + cs) audio.length = offset + cs :=
        min_eq_left (le_of_lt hlt)
      rw [show chunkSpansSpec audio.length cs ov (fuel + 1) offset =
            (match chunkSpansSpec audio.length cs ov fuel (offset + cs - ov) with
             | none => none
             | some rest => some ((offset, offset + cs) :: rest)) from by
        simp only [chunkSpansSpec, if_pos hoff, hemin]
        rw [if_neg (by omega : ¬ offset + cs = audio.length)]] at hsp
      rcases hrest : chunkSpansSpec audio.length cs ov fuel (offset + cs - ov)
        with _ | rest
      · rw [hrest] at hsp
        simp at hsp
      · rw [hrest] at hsp
        simp only [Option.some.injEq] at hsp
        subst hsp
        have hoff' : offset + cs - ov < audio.length := by omega
        simp only [transcribeChunkLoop, if_pos hoff, hemin]
        rw [if_neg (by omega : ¬ offset + cs = audio.length)]
        by_cases hf : f (chunkSlice audio (offset, offset + cs)) = ""
        · rw [if_pos hf, ih (offset + cs - ov) acc rest hrest hoff']
          simp [hf]
        · rw [if_neg hf, ih (offset + cs - ov) (acc ++ [f (chunkSlice audio (offset, offset + cs))]) rest hrest hoff']
          simp [hf]

theorem chunkLoop_isSome {α : Type} (tc : List α → Except String String)
    (audio : List α) (cs ov : Nat) (hcs : ov < cs) :
    ∀ (fuel offset : Nat) (acc : List String),
      offset < audio.length → audio.length - offset ≤ fuel →
      (transcribeChunkLoop tc audio cs ov fuel offset acc).isSome = true := by
  intro fuel
  induction fuel with
  | zero => intro offset acc h1 h2; omega
  | succ fuel ih =>
    intro offset acc h1 h2
    by_cases he : min (offset + cs) audio.length = audio.length
    · simp only [transcribeChunkLoop, if_pos h1, he]
      rcases tc (chunkSlice audio (offset, audio.length)) with e | t
      · rfl
      · simp
    · have hlt : offset + cs < audio.length := by
        rcases Nat.lt_or_ge (offset + cs) audio.length with h | h
        · exact h
        · exact absurd (min_eq_right h) he
      have hemin : min (offset + cs) audio.length = offset + cs :=
        min_eq_left (le_of_lt hlt)
      simp only [transcribeChunkLoop, if_pos h1, hemin]
      rcases tc (chunkSlice audio (offset, offset + cs)) with e | t
      · rfl
      · show (if offset + cs = audio.length then
            some (Except.ok (String.intercalate " " (if t = "" then acc else acc ++ [t])))
          else transcribeChunkLoop tc audio cs ov fuel (offset + cs - ov)
            (if t = "" then acc else acc ++ [t])).isSome = true
        rw [if_neg (by omega : ¬ offset + cs = audio.length)]
        exact ih (offset + cs - ov) _ (by omega) (by omega)

/-- C10: for non-empty audio and sample rate ≥ 1, `WhisperLocal::transcribe`
handles input of at most 30·rate samples as one direct chunk; longer
input is cut into spans of at most 30·rate samples, each successive span
starting exactly rate samples before the previous span's end, the first
starting at 0, the last ending at the last sample, their union covering
every sample index; the chunk loop terminates (never exhausts its fuel),
and with an always-succeeding chunk transcriber the result is the
non-empty per-chunk transcriptions joined by single spaces. -/
theorem claim_C10_chunked_transcription {α : Type}
    (tc : List α → Except String String) (f : List α → String)
    (audio : List α) (r : Nat) (hne : audio ≠ []) (hr : 1 ≤ r) :
    (WhisperLocal.transcribe tc audio r).isSome = true ∧
    (audio.length ≤ 30 * r →
      WhisperLocal.transcribe tc audio r = some (tc audio)) ∧
    (30 * r < audio.length →
      ∃ sp, chunkSpansSpec audio.length (30 * r) r audio.length 0 = some sp ∧
        (sp.map Prod.fst).head? = some 0 ∧
        (sp.map Prod.snd).getLast? = some audio.length ∧
        (∀ p ∈ sp, p.1 < p.2 ∧ p.2 ≤ audio.length ∧ p.2 - p.1 ≤ 30 * r) ∧
        adjOverlap r sp = true ∧
        (∀ i, i < audio.length → ∃ p ∈ sp, p.1 ≤ i ∧ i < p.2) ∧
        WhisperLocal.transcribe (fun c => Except.ok (f c)) audio r =
          some (Except.ok (String.intercalate " "
            ((sp.map (fun p => f (chunkSlice audio p))).filter
              (fun t => !(t == "")))))) := by
  have hnl : 0 < audio.length := List.length_pos.mpr hne
  by_cases hlen : audio.length ≤ 30 * r
  · have htr : WhisperLocal.transcribe tc audio r = some (tc audio) := by
      simp [WhisperLocal.transcribe, CHUNK_DURATION_SECS, hlen]
    refine ⟨by rw [htr]; rfl, fun _ => htr, fun h => absurd h (by omega)⟩
  · have h30 : 30 * r < audio.length := by omega
    have hovcs : r < 30 * r := by omega
    have htr : ∀ (g : List α → Except String String),
        WhisperLocal.transcribe g audio r =
          transcribeChunkLoop g audio (30 * r) r audio.length 0 [] := by
      intro g
      simp [WhisperLocal.transcribe, CHUNK_DURATION_SECS, OVERLAP_SECS, hlen]
    refine ⟨?_, fun h => absurd h hlen, fun _ => ?_⟩
    · rw [htr tc]
      exact chunkLoop_isSome tc audio (30 * r) r hovcs audio.length 0 [] hnl (by omega)
    · obtain ⟨sp, hsp, hA, hB, hC, hD, hE⟩ :=
        chunkSpans_exists audio.length (30 * r) r hovcs audio.length 0 hnl (by omega)
      refine ⟨sp, hsp, hA, hB, hC, hD, ?_, ?_⟩
      · intro i hi
        exact hE i (Nat.zero_le i) hi
      · rw [htr (fun c => Except.ok (f c))]
        simpa using chunkLoop_text f audio (30 * r) r audio.length 0 [] sp hsp hnl

/-- Witness for C10 at a concrete input: 31 samples at rate 1 split into
the spans (0,30) and (29,31), and with every chunk transcribing to "a"
the result is "a a". -/
theorem claim_C10_witness :
    (WhisperLocal.transcribe (fun _ => Except.ok "a") (List.range 31) 1).isSome = true :=
  (claim_C10_chunked_transcription (fun _ => Except.ok "a") (fun _ => "a")
    (List.range 31) 1 (by decide) (by decide)).1

/-- Witness for C5 at a concrete input: an empty run's trace holds no
model load. -/
theorem claim_C5_witness :
    Act.modelLoad ∉ (App.run (Except.ok ()) HotkeyMode.toggle []).2.2 :=
  (claim_C5_no_preload_task (Except.ok ()) HotkeyMode.toggle []).1

/-- Witness for C6 at a concrete input: a 16 kHz recorder with an empty
buffer errors on stop. -/
theorem claim_C6_witness :
    AudioRecorder.stop ⟨16000, []⟩ = Except.error "no audio data captured" :=
  (claim_C6_empty_buffer 16000
    ⟨Except.ok (), Except.ok [], Except.ok "", Except.ok ()⟩).1

/-- Witness for C7 at a concrete input: the empty-text transition ends in
`Idle` with no injection, and the loop result is success. -/
theorem claim_C7_witness :
    appStep AppState.recording HotkeyEvent.pressed HotkeyMode.toggle
        ⟨Except.ok (), Except.ok [], Except.ok "", Except.ok ()⟩ =
      (AppState.idle, [Act.playStop, Act.recorderStop, Act.transcribeCall]) :=
  (claim_C7_empty_text
    ⟨Except.ok (), Except.ok [], Except.ok "", Except.ok ()⟩
    [] HotkeyMode.toggle []).1
